import Mathlib

/-!
Shallow embedding of the `gocache` in-memory cache (Go) and verification of
the specification's claims about it.

The Go code (cache.go, item.go, errors.go) is a single-component TTL cache:
a map from string keys to `Item` records, each carrying an opaque value and
an absolute expiration instant in Unix nanoseconds (0 = never expires).
Concurrency is a single RWMutex around every map access; since every public
operation holds the lock for its whole critical section, the sequential
embedding below passes the store state explicitly and passes the current
time `now` (the result of `time.Now().UnixNano()`) as an argument.

Go's `interface{}` values are modelled as `Option V` for a type parameter
`V`, with `none` playing the role of Go's `nil`.  Go's `error` results are
modelled with `Except`.  The Go map is modelled as an association list with
`mapGet` / `mapSet` / `mapDelete` realizing Go's map read, write and delete.
-/

namespace GoCache

/-- The three sentinel errors of errors.go: `ErrKeyNotFound`, `ErrKeyExpired`,
`ErrNilValue`. -/
inductive GoErr where
  | keyNotFound
  | keyExpired
  | nilValue
  deriving DecidableEq, Repr

/-- item.go: `Item` holds a stored value (`interface{}`, here `Option V` with
`none` for Go's `nil`) and an `Expiration int64`, a Unix timestamp in
nanoseconds where `0` means the item never expires. -/
structure Item (V : Type) where
  value : Option V
  expiration : Int
  deriving DecidableEq, Repr

/-- item.go `Expired`: `if item.Expiration == 0 { return false };
return time.Now().UnixNano() > item.Expiration`, with `now` passed
explicitly. -/
def Item.Expired (item : Item V) (now : Int) : Bool :=
  if item.expiration = 0 then false
  else decide (item.expiration < now)

/-- Go map read `m[k]`: first binding of `k` in the association list. -/
def mapGet (l : List (String × Item V)) (k : String) : Option (Item V) :=
  (l.find? (fun kv => kv.1 == k)).map (fun kv => kv.2)

/-- Go map write `m[k] = it`: any old binding of `k` is gone and `k` is bound
to `it`; bindings of other keys are untouched. -/
def mapSet (l : List (String × Item V)) (k : String) (it : Item V) :
    List (String × Item V) :=
  l.filter (fun kv => !(kv.1 == k)) ++ [(k, it)]

/-- Go map delete `delete(m, k)`. -/
def mapDelete (l : List (String × Item V)) (k : String) :
    List (String × Item V) :=
  l.filter (fun kv => !(kv.1 == k))

/-- cache.go: the `Cache` struct minus the mutex and the stop channel, which
the sequential embedding does not carry (the sweep goroutine and channel are
modelled separately for `Stop`). -/
structure Cache (V : Type) where
  items : List (String × Item V)
  defaultExpiration : Int
  cleanupInterval : Int
  deriving DecidableEq, Repr

/-- cache.go `Options`. -/
structure Options where
  defaultExpiration : Int
  cleanupInterval : Int
  deriving DecidableEq, Repr

/-- cache.go `New`: fresh empty map with the configured durations (the
goroutine start is part of the sweep model below). -/
def New (V : Type) (options : Options) : Cache V :=
  { items := []
    defaultExpiration := options.defaultExpiration
    cleanupInterval := options.cleanupInterval }

/-- cache.go `SetWithExpiration`: reject `nil` values with `ErrNilValue`;
otherwise `expiration` is `now + duration` when `duration > 0` and the
zero sentinel otherwise, and the item is written wholesale into the map. -/
def SetWithExpiration (c : Cache V) (key : String) (value : Option V)
    (duration : Int) (now : Int) : Except GoErr Unit × Cache V :=
  if value.isNone then (.error .nilValue, c)
  else
    let expiration : Int := if duration > 0 then now + duration else 0
    (.ok (), { c with items := mapSet c.items key ⟨value, expiration⟩ })

/-- cache.go `Set`: `SetWithExpiration` with the store's default duration. -/
def Set (c : Cache V) (key : String) (value : Option V) (now : Int) :
    Except GoErr Unit × Cache V :=
  SetWithExpiration c key value c.defaultExpiration now

/-- cache.go `Get`: absent keys give `ErrKeyNotFound`; an expired entry gives
`ErrKeyExpired` and is lazily deleted after a second lookup-and-check under
the write lock (in the sequential embedding the state cannot change between
the two checks, so the re-check sees the same entry); otherwise the stored
value is returned and the state is untouched. -/
def Get (c : Cache V) (key : String) (now : Int) :
    Except GoErr (Option V) × Cache V :=
  match mapGet c.items key with
  | none => (.error .keyNotFound, c)
  | some item =>
    if item.Expired now then
      (.error .keyExpired,
        match mapGet c.items key with
        | some item2 =>
          if item2.Expired now then { c with items := mapDelete c.items key }
          else c
        | none => c)
    else (.ok item.value, c)

/-- cache.go `GetOrSet`.  The caller-supplied compute function is invoked at
most once, so it is modelled by the value `fn : Except E (Option V)` it would
produce; the `Bool` in the result records whether it was invoked.  An error
from the compute function is returned as `Sum.inr` of the very same value;
the only store-originated error is `Sum.inl GoErr.nilValue` from `Set`. -/
def GetOrSet (c : Cache V) (key : String) (fn : Except E (Option V))
    (now : Int) : Except (GoErr ⊕ E) (Option V) × Cache V × Bool :=
  match Get c key now with
  | (.ok value, c1) => (.ok value, c1, false)
  | (.error _, c1) =>
    match fn with
    | .error e => (.error (.inr e), c1, true)
    | .ok value =>
      match Set c1 key value now with
      | (.error e, c2) => (.error (.inl e), c2, true)
      | (.ok _, c2) => (.ok value, c2, true)

/-- cache.go `Delete`: remove the binding if present, report whether it was. -/
def Delete (c : Cache V) (key : String) : Bool × Cache V :=
  if (mapGet c.items key).isSome then
    (true, { c with items := mapDelete c.items key })
  else (false, c)

/-- cache.go `DeleteExpired`: one sweep at time `now`, deleting every entry
with `v.Expiration > 0 && now > v.Expiration`. -/
def DeleteExpired (c : Cache V) (now : Int) : Cache V :=
  { c with
    items := c.items.filter
      (fun kv => !(decide (kv.2.expiration > 0) && decide (now > kv.2.expiration))) }

/-- cache.go `Items`: a fresh map holding `k ↦ v.Value` for every entry with
`v.Expiration == 0 || now < v.Expiration`; the store is not touched. -/
def Items (c : Cache V) (now : Int) : List (String × Option V) :=
  (c.items.filter
      (fun kv => decide (kv.2.expiration = 0) || decide (now < kv.2.expiration))).map
    (fun kv => (kv.1, kv.2.value))

/-- cache.go `ItemCount`: `len(c.items)`, expired entries included. -/
def ItemCount (c : Cache V) : Nat :=
  c.items.length

/-- cache.go `Flush`: replace the map with an empty one. -/
def Flush (c : Cache V) : Cache V :=
  { c with items := [] }

/-- State of the background sweep goroutine of `startCleanupRoutine`:
never started (`cleanupInterval` was 0 at `New`), parked in its `select`
(ready to receive on `stopCleanup`), or returned. -/
inductive SweepState where
  | notStarted
  | running
  | stopped
  deriving DecidableEq, Repr

/-- cache.go `Stop`: `if c.cleanupInterval > 0 { c.stopCleanup <- true }`.
`stopCleanup` is the unbuffered channel `make(chan bool)` from `New`, whose
only receiver is the sweep goroutine's `select`; a send on an unbuffered
channel completes only when a receiver is ready, so it completes exactly
when the sweeper is `running` (a sweeper momentarily inside `DeleteExpired`
returns to its `select` and is `running` for this purpose).  The result is
`some s` with the sweeper's next state when the call returns, and `none`
when the send can never be received and the caller blocks forever. -/
def Stop (cleanupInterval : Int) (sweep : SweepState) : Option SweepState :=
  if cleanupInterval > 0 then
    match sweep with
    | .running => some .stopped
    | .notStarted => none
    | .stopped => none
  else some sweep

/-! ### Helper lemmas about the map model and `Expired` -/

/-- `Expired` holds exactly when the expiration is set (non-zero) and lies
strictly before `now`. -/
theorem Item.Expired_eq_true_iff (item : Item V) (now : Int) :
    item.Expired now = true ↔ item.expiration ≠ 0 ∧ item.expiration < now := by
  unfold Item.Expired
  by_cases h : item.expiration = 0 <;> simp [h]

theorem Item.Expired_eq_false_iff (item : Item V) (now : Int) :
    item.Expired now = false ↔ item.expiration = 0 ∨ now ≤ item.expiration := by
  rw [← Bool.not_eq_true, Item.Expired_eq_true_iff]
  constructor
  · intro h
    by_cases h0 : item.expiration = 0
    · exact Or.inl h0
    · exact Or.inr (le_of_not_lt fun hlt => h ⟨h0, hlt⟩)
  · rintro (h0 | hle) ⟨hne, hlt⟩
    · exact hne h0
    · exact absurd hlt (not_lt.mpr hle)

theorem mapGet_mapSet_self (l : List (String × Item V)) (k : String)
    (it : Item V) : mapGet (mapSet l k it) k = some it := by
  unfold mapGet mapSet
  rw [List.find?_append]
  have h1 : (l.filter (fun kv => !(kv.1 == k))).find? (fun kv => kv.1 == k)
      = none := by
    rw [List.find?_eq_none]
    intro x hx p
    have := (List.mem_filter.mp hx).2
    simp only [p] at this
    simp at this
  simp [h1]

/-- Dropping the bindings of key `k` does not change the first binding of any
other key `k'`. -/
theorem find?_filter_not_key (l : List (String × Item V)) (k k' : String)
    (h : k' ≠ k) :
    (l.filter (fun kv => !(kv.1 == k))).find? (fun kv => kv.1 == k')
      = l.find? (fun kv => kv.1 == k') := by
  induction l with
  | nil => rfl
  | cons a t ih =>
    by_cases hk : a.1 = k
    · have h2 : (k == k') = false := by simp [Ne.symm h]
      simp [List.filter_cons, hk, List.find?, h2, ih]
    · have h1 : (a.1 == k) = false := by simp [hk]
      cases hb : (a.1 == k') <;>
        simp [List.filter_cons, h1, List.find?, hb, ih]

theorem mapGet_mapSet_ne (l : List (String × Item V)) (k k' : String)
    (it : Item V) (h : k' ≠ k) :
    mapGet (mapSet l k it) k' = mapGet l k' := by
  unfold mapGet mapSet
  rw [List.find?_append, find?_filter_not_key l k k' h]
  have hkk : (k == k') = false := by simp [Ne.symm h]
  have h2 : ([(k, it)].find? (fun kv => kv.1 == k')) = none := by
    simp [List.find?, hkk]
  rw [h2, Option.or_none]

theorem mapGet_mapDelete_self (l : List (String × Item V)) (k : String) :
    mapGet (mapDelete l k) k = none := by
  unfold mapGet mapDelete
  have h1 : (l.filter (fun kv => !(kv.1 == k))).find? (fun kv => kv.1 == k)
      = none := by
    rw [List.find?_eq_none]
    intro x hx p
    have := (List.mem_filter.mp hx).2
    simp only [p] at this
    simp at this
  simp [h1]

theorem mapGet_mapDelete_ne (l : List (String × Item V)) (k k' : String)
    (h : k' ≠ k) : mapGet (mapDelete l k) k' = mapGet l k' := by
  unfold mapGet mapDelete
  rw [find?_filter_not_key l k k' h]

/-! ### Claim theorems -/

/-- Claim C1: `Get(key)` has exactly three outcomes: an absent key fails with
`KeyNotFoundError` and leaves the store unchanged; a key present with a
non-zero expiration strictly earlier than the current time fails with
`KeyExpiredError` and the expired entry is removed from the store; a key
present and not expired returns the stored value and leaves the store
unchanged. -/
theorem C1_get_trichotomy (c : Cache V) (key : String) (now : Int) :
    (mapGet c.items key = none →
      Get c key now = (.error .keyNotFound, c)) ∧
    (∀ item : Item V, mapGet c.items key = some item →
      item.expiration ≠ 0 → item.expiration < now →
      Get c key now
        = (.error .keyExpired, { c with items := mapDelete c.items key })) ∧
    (∀ item : Item V, mapGet c.items key = some item →
      ¬ (item.expiration ≠ 0 ∧ item.expiration < now) →
      Get c key now = (.ok item.value, c)) := by
  refine ⟨?_, ?_, ?_⟩
  · intro h
    simp [Get, h]
  · intro item h hne hlt
    have hexp : item.Expired now = true :=
      (Item.Expired_eq_true_iff item now).mpr ⟨hne, hlt⟩
    simp [Get, h, hexp]
  · intro item h hno
    have hexp : item.Expired now = false := by
      rw [← Bool.not_eq_true, Item.Expired_eq_true_iff]
      exact hno
    simp [Get, h, hexp]

/-- Witness for C1 at concrete inputs: one instance of each outcome. -/
theorem C1_get_trichotomy_witness :
    Get (⟨[("a", ⟨some 5, 10⟩)], 0, 0⟩ : Cache Nat) "b" 20
      = (.error .keyNotFound, ⟨[("a", ⟨some 5, 10⟩)], 0, 0⟩) ∧
    Get (⟨[("a", ⟨some 5, 10⟩)], 0, 0⟩ : Cache Nat) "a" 20
      = (.error .keyExpired,
         ⟨mapDelete [("a", ⟨some 5, 10⟩)] "a", 0, 0⟩) ∧
    Get (⟨[("a", ⟨some 5, 10⟩)], 0, 0⟩ : Cache Nat) "a" 7
      = (.ok (some 5), ⟨[("a", ⟨some 5, 10⟩)], 0, 0⟩) := by
  refine ⟨?_, ?_, ?_⟩
  · exact (C1_get_trichotomy _ "b" 20).1 (by decide)
  · exact (C1_get_trichotomy _ "a" 20).2.1 ⟨some 5, 10⟩ (by decide)
      (by decide) (by decide)
  · exact (C1_get_trichotomy _ "a" 7).2.2 ⟨some 5, 10⟩ (by decide) (by decide)

/-- Claim C4: `SetWithExpiration(key, value, d)` with a non-nil value and
`d > 0` stores the item with absolute expiration `now + d`; with `d = 0` it
stores an item that never expires at any time, regardless of the store's
configured default expiration; in both cases the call succeeds, exactly the
binding at `key` is created or replaced wholesale, and all other bindings
are untouched. -/
theorem C4_setWithExpiration (c : Cache V) (key : String) (v : V)
    (d now : Int) (hd : 0 ≤ d) :
    (SetWithExpiration c key (some v) d now).1 = .ok () ∧
    mapGet (SetWithExpiration c key (some v) d now).2.items key
      = some ⟨some v, if 0 < d then now + d else 0⟩ ∧
    (∀ k', k' ≠ key →
      mapGet (SetWithExpiration c key (some v) d now).2.items k'
        = mapGet c.items k') ∧
    (d = 0 →
      ∀ t, Item.Expired (⟨some v, if 0 < d then now + d else 0⟩ : Item V) t
        = false) := by
  refine ⟨?_, ?_, ?_, ?_⟩
  · simp [SetWithExpiration]
  · simp [SetWithExpiration, mapGet_mapSet_self]
  · intro k' hk'
    simp [SetWithExpiration, mapGet_mapSet_ne c.items key k' _ hk']
  · intro h0 t
    subst h0
    simp [Item.Expired]

/-- Witness for C4 at concrete inputs, one for `d > 0` and one for `d = 0`. -/
theorem C4_setWithExpiration_witness :
    (SetWithExpiration (⟨[], 99, 0⟩ : Cache Nat) "a" (some 3) 10 100).1
      = .ok () ∧
    mapGet (SetWithExpiration (⟨[], 99, 0⟩ : Cache Nat) "a" (some 3) 10
        100).2.items "a" = some ⟨some 3, 110⟩ ∧
    mapGet (SetWithExpiration (⟨[], 99, 0⟩ : Cache Nat) "a" (some 3) 10
        100).2.items "b" = mapGet ([] : List (String × Item Nat)) "b" ∧
    (∀ t, Item.Expired (⟨some 3, (0 : Int)⟩ : Item Nat) t = false) := by
  have h10 := C4_setWithExpiration (⟨[], 99, 0⟩ : Cache Nat) "a" 3 10 100
    (by decide)
  have h0 := C4_setWithExpiration (⟨[], 99, 0⟩ : Cache Nat) "a" 3 0 100
    (by decide)
  refine ⟨h10.1, ?_, h10.2.2.1 "b" (by decide), ?_⟩
  · have := h10.2.1
    simpa using this
  · have := h0.2.2.2 rfl
    simpa using this

/-- Claim C6: `Set(key, nil)` fails with `NilValueError` and leaves the
whole store — in particular any existing entry at `key` — unchanged. -/
theorem C6_set_nil (c : Cache V) (key : String) (now : Int) :
    Set c key none now = (.error .nilValue, c) := by
  simp [Set, SetWithExpiration]

/-- Claim C8: `ItemCount()` is the raw number of entries in the mapping: at
any time it equals the number of entries already expired plus the number of
entries not expired, so logically expired but unswept entries are counted. -/
theorem C8_itemCount (c : Cache V) (now : Int) :
    ItemCount c
      = (c.items.filter (fun kv => kv.2.Expired now)).length
        + (c.items.filter (fun kv => !(kv.2.Expired now))).length := by
  unfold ItemCount
  exact List.length_eq_length_filter_add _

/-- Claim C9: `SetWithExpiration` with a strictly negative duration behaves
exactly like duration zero: it succeeds, stores the item with the
never-expires sentinel `0`, and the stored item never expires. -/
theorem C9_negative_duration (c : Cache V) (key : String) (v : V)
    (d now : Int) (hd : d < 0) :
    SetWithExpiration c key (some v) d now
      = SetWithExpiration c key (some v) 0 now ∧
    (SetWithExpiration c key (some v) d now).1 = .ok () ∧
    mapGet (SetWithExpiration c key (some v) d now).2.items key
      = some ⟨some v, 0⟩ ∧
    (∀ t, Item.Expired (⟨some v, (0 : Int)⟩ : Item V) t = false) := by
  have h1 : ¬ (0 < d) := not_lt.mpr (le_of_lt hd)
  refine ⟨?_, ?_, ?_, ?_⟩
  · simp [SetWithExpiration, h1]
  · simp [SetWithExpiration]
  · simp [SetWithExpiration, h1, mapGet_mapSet_self]
  · intro t
    simp [Item.Expired]

/-- Witness for C9 at a concrete negative duration. -/
theorem C9_negative_duration_witness :
    SetWithExpiration (⟨[], 0, 0⟩ : Cache Nat) "a" (some 2) (-7) 50
      = SetWithExpiration (⟨[], 0, 0⟩ : Cache Nat) "a" (some 2) 0 50 ∧
    mapGet (SetWithExpiration (⟨[], 0, 0⟩ : Cache Nat) "a" (some 2) (-7)
        50).2.items "a" = some ⟨some 2, 0⟩ := by
  have h := C9_negative_duration (⟨[], 0, 0⟩ : Cache Nat) "a" 2 (-7) 50
    (by decide)
  exact ⟨h.1, h.2.2.1⟩

/-- Claim C3 counterexample: with one entry at key `"a"` whose expiration
equals the current instant (`expiration = 5`, `now = 5`), the entry is not
expired (`Expired` is strict: `now > expiration` fails), and `Get` would
return it, yet `Items` omits it because `Items` keeps an entry only when
`now < expiration` holds strictly.  So `Items` does not return exactly the
non-expired entries. -/
theorem C3_items_counterexample :
    Item.Expired (⟨some 1, 5⟩ : Item Nat) 5 = false ∧
    Get (⟨[("a", ⟨some 1, 5⟩)], 0, 0⟩ : Cache Nat) "a" 5
      = (.ok (some 1), ⟨[("a", ⟨some 1, 5⟩)], 0, 0⟩) ∧
    Items (⟨[("a", ⟨some 1, 5⟩)], 0, 0⟩ : Cache Nat) 5 = [] := by
  refine ⟨rfl, ?_, rfl⟩
  simp [Get, mapGet, List.find?, Item.Expired]

/-- Claim C3 amended: `Items()` returns exactly the keys whose entries have
expiration `0` (never expires) or strictly later than the call time, paired
with their stored values; an entry whose expiration equals the call instant
is omitted even though it is not yet expired.  (Non-mutation and snapshot
semantics are inherent in the embedding: `Items` reads the store and returns
a fresh list.) -/
theorem C3_items_characterization (c : Cache V) (now : Int) (k : String)
    (v : Option V) :
    (k, v) ∈ Items c now ↔
      ∃ it : Item V, (k, it) ∈ c.items ∧ it.value = v ∧
        (it.expiration = 0 ∨ now < it.expiration) := by
  unfold Items
  constructor
  · intro h
    obtain ⟨kv, hkv, heq⟩ := List.mem_map.mp h
    obtain ⟨hmem, hcond⟩ := List.mem_filter.mp hkv
    have h1 : kv.1 = k := congrArg Prod.fst heq
    have h2 : kv.2.value = v := congrArg Prod.snd heq
    refine ⟨kv.2, ?_, h2, ?_⟩
    · rw [← h1]
      simpa using hmem
    · simpa using hcond
  · rintro ⟨it, hmem, hval, hcond⟩
    apply List.mem_map.mpr
    refine ⟨(k, it), List.mem_filter.mpr ⟨hmem, ?_⟩, by simp [hval]⟩
    simpa using hcond

/-- Witness for the C3 characterization at a concrete store: a
never-expiring entry is present in the snapshot. -/
theorem C3_items_characterization_witness :
    ("b", (some 2 : Option Nat)) ∈
      Items (⟨[("a", ⟨some 1, 5⟩), ("b", ⟨some 2, 0⟩)], 0, 0⟩ : Cache Nat)
        10 := by
  exact (C3_items_characterization
      (⟨[("a", ⟨some 1, 5⟩), ("b", ⟨some 2, 0⟩)], 0, 0⟩ : Cache Nat)
      10 "b" (some 2)).mpr
    ⟨⟨some 2, 0⟩, by decide, rfl, Or.inl rfl⟩

/-- Claim C7: `DeleteExpired()` removes exactly the entries whose expiration
is set (non-zero) and strictly earlier than the sweep time, leaving every
other entry — never-expiring ones included — intact.  The hypothesis that
stored expirations are non-negative holds for every store reachable through
the API: expirations are either the sentinel `0` or `now + d` for a positive
wall-clock instant and positive `d`. -/
theorem C7_deleteExpired (c : Cache V) (now : Int)
    (hpos : ∀ kv ∈ c.items, 0 ≤ kv.2.expiration) (k : String) (it : Item V) :
    (k, it) ∈ (DeleteExpired c now).items ↔
      ((k, it) ∈ c.items ∧ ¬ (it.expiration ≠ 0 ∧ it.expiration < now)) := by
  unfold DeleteExpired
  constructor
  · intro h
    have h1 := (List.mem_filter.mp h).1
    have h2 := (List.mem_filter.mp h).2
    refine ⟨h1, ?_⟩
    rintro ⟨hne, hlt⟩
    have hge : 0 ≤ it.expiration := hpos _ h1
    have hgt : 0 < it.expiration := lt_of_le_of_ne hge (Ne.symm hne)
    simp [hgt, hlt] at h2
  · rintro ⟨h1, h2⟩
    refine List.mem_filter.mpr ⟨h1, ?_⟩
    by_cases hgt : 0 < it.expiration
    · have hnlt : ¬ (it.expiration < now) :=
        fun hlt => h2 ⟨ne_of_gt hgt, hlt⟩
      simp [hgt, hnlt]
    · simp [hgt]

/-- Witness for C7 on a concrete store at sweep time 10: the expired entry
(expiration 5) is removed, the never-expiring entry (expiration 0) and the
future entry (expiration 20) survive. -/
theorem C7_deleteExpired_witness :
    ("a", (⟨some 1, 5⟩ : Item Nat)) ∉
      (DeleteExpired
        (⟨[("a", ⟨some 1, 5⟩), ("b", ⟨some 2, 0⟩), ("c", ⟨some 3, 20⟩)],
          0, 0⟩ : Cache Nat) 10).items ∧
    ("b", (⟨some 2, 0⟩ : Item Nat)) ∈
      (DeleteExpired
        (⟨[("a", ⟨some 1, 5⟩), ("b", ⟨some 2, 0⟩), ("c", ⟨some 3, 20⟩)],
          0, 0⟩ : Cache Nat) 10).items ∧
    ("c", (⟨some 3, 20⟩ : Item Nat)) ∈
      (DeleteExpired
        (⟨[("a", ⟨some 1, 5⟩), ("b", ⟨some 2, 0⟩), ("c", ⟨some 3, 20⟩)],
          0, 0⟩ : Cache Nat) 10).items := by
  have hb := C7_deleteExpired
    (⟨[("a", ⟨some 1, 5⟩), ("b", ⟨some 2, 0⟩), ("c", ⟨some 3, 20⟩)],
      0, 0⟩ : Cache Nat) 10 (by decide) "b" ⟨some 2, 0⟩
  have hc := C7_deleteExpired
    (⟨[("a", ⟨some 1, 5⟩), ("b", ⟨some 2, 0⟩), ("c", ⟨some 3, 20⟩)],
      0, 0⟩ : Cache Nat) 10 (by decide) "c" ⟨some 3, 20⟩
  have ha := C7_deleteExpired
    (⟨[("a", ⟨some 1, 5⟩), ("b", ⟨some 2, 0⟩), ("c", ⟨some 3, 20⟩)],
      0, 0⟩ : Cache Nat) 10 (by decide) "a" ⟨some 1, 5⟩
  refine ⟨?_, ?_, ?_⟩
  · intro hmem
    exact (ha.mp hmem).2 (by decide)
  · exact hb.mpr ⟨by decide, by decide⟩
  · exact hc.mpr ⟨by decide, by decide⟩

/-- Claim C5 counterexample: on an empty store, a compute function that
succeeds with a nil value (`Except.ok none`, Go's `return nil, nil`) does
not get its computed value returned: `GetOrSet` returns the store's
`NilValueError` from the internal `Set` instead of the computed value. -/
theorem C5_getOrSet_counterexample :
    (GetOrSet (⟨[], 7, 0⟩ : Cache Nat) "a"
        (Except.ok (none : Option Nat) : Except Unit (Option Nat)) 0).1
      = .error (.inl .nilValue) ∧
    (GetOrSet (⟨[], 7, 0⟩ : Cache Nat) "a"
        (Except.ok (none : Option Nat) : Except Unit (Option Nat)) 0).1
      ≠ .ok none := by
  refine ⟨rfl, ?_⟩
  intro h
  exact Except.noConfusion (rfl.symm.trans h)

/-- Claim C5 amended: if `Get(key)` succeeds, `GetOrSet` returns the cached
value without invoking the compute function and with the store exactly as
`Get` left it; otherwise the compute function is invoked — on its failure
the very same error value is propagated unwrapped and nothing is stored,
and on its success with a non-nil value that value is stored via `Set`
(hence under the store's default expiration) and returned.  (A nil computed
value instead yields `NilValueError`; that path is the subject of C10.) -/
theorem C5_getOrSet (c : Cache V) (key : String) (fn : Except E (Option V))
    (now : Int) :
    (∀ v c1, Get c key now = (.ok v, c1) →
      GetOrSet c key fn now = (.ok v, c1, false)) ∧
    (∀ err c1 e, Get c key now = (.error err, c1) → fn = .error e →
      GetOrSet c key fn now = (.error (.inr e), c1, true)) ∧
    (∀ err c1 v, Get c key now = (.error err, c1) → fn = .ok (some v) →
      (Set c1 key (some v) now).1 = .ok () ∧
      GetOrSet c key fn now
        = (.ok (some v), (Set c1 key (some v) now).2, true)) := by
  refine ⟨?_, ?_, ?_⟩
  · intro v c1 hget
    simp [GetOrSet, hget]
  · intro err c1 e hget hfn
    simp [GetOrSet, hget, hfn]
  · intro err c1 v hget hfn
    have hs : Set c1 key (some v) now
        = (.ok (), { c1 with
            items := mapSet c1.items key
              ⟨some v,
                if c1.defaultExpiration > 0 then now + c1.defaultExpiration
                else 0⟩ }) := by
      simp [Set, SetWithExpiration]
    refine ⟨by simp [hs], ?_⟩
    simp [GetOrSet, hget, hfn, hs]

/-- Witness for C5 at concrete inputs: a cache hit returns the cached value
without invoking the compute function; a compute failure is propagated
verbatim; a compute success is stored and returned. -/
theorem C5_getOrSet_witness :
    GetOrSet (⟨[("a", ⟨some 5, 0⟩)], 0, 0⟩ : Cache Nat) "a"
        (Except.ok (some 9) : Except Unit (Option Nat)) 3
      = (.ok (some 5), ⟨[("a", ⟨some 5, 0⟩)], 0, 0⟩, false) ∧
    GetOrSet (⟨[], 0, 0⟩ : Cache Nat) "a"
        (Except.error () : Except Unit (Option Nat)) 3
      = (.error (.inr ()), ⟨[], 0, 0⟩, true) ∧
    GetOrSet (⟨[], 0, 0⟩ : Cache Nat) "a"
        (Except.ok (some 9) : Except Unit (Option Nat)) 3
      = (.ok (some 9),
         (Set (⟨[], 0, 0⟩ : Cache Nat) "a" (some 9) 3).2, true) := by
  have h1 := (C5_getOrSet (⟨[("a", ⟨some 5, 0⟩)], 0, 0⟩ : Cache Nat) "a"
    (Except.ok (some 9) : Except Unit (Option Nat)) 3).1 (some 5)
    (⟨[("a", ⟨some 5, 0⟩)], 0, 0⟩ : Cache Nat)
  have h2 := (C5_getOrSet (⟨[], 0, 0⟩ : Cache Nat) "a"
    (Except.error () : Except Unit (Option Nat)) 3).2.1 .keyNotFound
    (⟨[], 0, 0⟩ : Cache Nat) ()
  have h3 := (C5_getOrSet (⟨[], 0, 0⟩ : Cache Nat) "a"
    (Except.ok (some 9) : Except Unit (Option Nat)) 3).2.2 .keyNotFound
    (⟨[], 0, 0⟩ : Cache Nat) 9
  refine ⟨h1 ?_, h2 ?_ rfl, (h3 ?_ rfl).2⟩
  · simp [Get, mapGet, List.find?, Item.Expired]
  · rfl
  · rfl

/-- If `Get` fails for a key — absent or expired — then the key is unbound
in the state `Get` leaves behind: an absent key stays absent, and an
expired entry is lazily deleted. -/
theorem Get_error_mapGet_none (c : Cache V) (key : String) (now : Int)
    (err : GoErr) (c1 : Cache V) (h : Get c key now = (.error err, c1)) :
    mapGet c1.items key = none := by
  cases hk : mapGet c.items key with
  | none =>
    have hget : Get c key now = (.error .keyNotFound, c) := by
      simp [Get, hk]
    rw [hget] at h
    have hc : c = c1 := congrArg Prod.snd h
    rw [← hc, hk]
  | some item =>
    cases hexp : item.Expired now with
    | false =>
      have hget : Get c key now = (.ok item.value, c) := by
        simp [Get, hk, hexp]
      rw [hget] at h
      exact Except.noConfusion (congrArg Prod.fst h)
    | true =>
      have hget : Get c key now
          = (.error .keyExpired, { c with items := mapDelete c.items key }) := by
        simp [Get, hk, hexp]
      rw [hget] at h
      have hc : ({ c with items := mapDelete c.items key } : Cache V) = c1 :=
        congrArg Prod.snd h
      rw [← hc]
      exact mapGet_mapDelete_self c.items key

/-- Claim C10: when the key is absent or expired (`Get` fails) and the
compute function succeeds with a nil value, `GetOrSet` fails with
`NilValueError` — an error originating in the store (`Sum.inl`), not in the
compute function — the final state is exactly the state `Get` left, and the
key is bound to nothing. -/
theorem C10_getOrSet_nil (c : Cache V) (key : String) (now : Int)
    (err : GoErr) (c1 : Cache V) (h : Get c key now = (.error err, c1)) :
    GetOrSet c key (Except.ok (none : Option V) : Except E (Option V)) now
      = (.error (.inl .nilValue), c1, true) ∧
    mapGet c1.items key = none := by
  have hs : Set c1 key (none : Option V) now = (.error .nilValue, c1) := by
    simp [Set, SetWithExpiration]
  refine ⟨?_, Get_error_mapGet_none c key now err c1 h⟩
  simp [GetOrSet, h, hs]

/-- Witness for C10: an absent key and an expired key, each with a
nil-successful compute function. -/
theorem C10_getOrSet_nil_witness :
    GetOrSet (⟨[], 4, 0⟩ : Cache Nat) "a"
        (Except.ok (none : Option Nat) : Except Unit (Option Nat)) 3
      = (.error (.inl .nilValue), ⟨[], 4, 0⟩, true) ∧
    GetOrSet (⟨[("a", ⟨some 1, 5⟩)], 4, 0⟩ : Cache Nat) "a"
        (Except.ok (none : Option Nat) : Except Unit (Option Nat)) 9
      = (.error (.inl .nilValue),
         ⟨mapDelete [("a", ⟨some 1, 5⟩)] "a", 4, 0⟩, true) := by
  have h1 := C10_getOrSet_nil (E := Unit) (⟨[], 4, 0⟩ : Cache Nat) "a" 3
    .keyNotFound (⟨[], 4, 0⟩ : Cache Nat) rfl
  have h2 := C10_getOrSet_nil (E := Unit)
    (⟨[("a", ⟨some 1, 5⟩)], 4, 0⟩ : Cache Nat) "a" 9 .keyExpired
    (⟨mapDelete [("a", ⟨some 1, 5⟩)] "a", 4, 0⟩ : Cache Nat)
    (by simp [Get, mapGet, mapDelete, List.find?, Item.Expired])
  exact ⟨h1.1, h2.1⟩

/-- Claim C2, refuted at the failing input: on a store whose
`cleanupInterval` is positive, a `Stop()` call made after the sweep
goroutine has already stopped (for instance a second `Stop()`) sends on the
unbuffered `stopCleanup` channel with no receiver left, so the caller
blocks forever (`none`).  A first `Stop()` with the sweeper running and any
`Stop()` with `cleanupInterval = 0` do return. -/
theorem C2_stop_deadlock :
    Stop 1 SweepState.stopped = none ∧
    Stop 1 SweepState.running = some SweepState.stopped ∧
    Stop 0 SweepState.notStarted = some SweepState.notStarted ∧
    Stop 0 SweepState.stopped = some SweepState.stopped := by
  refine ⟨rfl, rfl, ?_, ?_⟩ <;> simp [Stop]

end GoCache
